import Mathlib

/- A shallow embedding of the meme-OCR script (src/main.py): a Reddit feed client
and an image-processing pipeline (grayscale threshold, morphology, contour
filtering, crop, per-region OCR, persistence), together with theorems settling
the behavioural claims made about it. External library operations (colour
conversion, morphology kernels, contour extraction, the OCR engine) are
parameters of the pipeline, exactly as the spec treats them as out-of-scope
collaborators; everything the script itself computes is embedded directly. -/

namespace MemeOcr

/-- Single-channel (grayscale or mask) image: dimensions plus a pixel grid. -/
structure Img where
  height : Nat
  width : Nat
  px : Nat → Nat → Nat

/-- Three-channel colour image as decoded by cv2.imread (channel order BGR). -/
structure CImg where
  height : Nat
  width : Nat
  px : Nat → Nat → Nat × Nat × Nat

/-- Axis-aligned bounding box as returned by cv2.boundingRect: x, y, width,
height. Contours are modelled by their bounding boxes, since the script only
ever consumes a contour through cv2.boundingRect. -/
structure Box where
  x : Nat
  y : Nat
  w : Nat
  h : Nat
deriving DecidableEq, Repr

/-- cv2.threshold with THRESH_BINARY_INV (src/main.py line 110): the destination
pixel is 0 when the source pixel strictly exceeds the threshold, and maxval
otherwise. -/
def thresholdBinaryInv (thresh maxval : Nat) (g : Img) : Img :=
  { g with px := fun i j => if thresh < g.px i j then 0 else maxval }

/-- The pointwise inversion thresh = 255 - thresh (src/main.py line 111). -/
def invert255 (g : Img) : Img :=
  { g with px := fun i j => 255 - g.px i j }

/-- The saved mask self.thresh (src/main.py lines 110-112): threshold at 250
with THRESH_BINARY_INV and maxval 255, then invert. -/
def threshMask (g : Img) : Img :=
  invert255 (thresholdBinaryInv 250 255 g)

/-- First rejection test of the contour filter (src/main.py line 128): the
bounding box is strictly taller than wide. -/
def tooTall (b : Box) : Bool :=
  decide (b.w < b.h)

/-- Second rejection test (src/main.py line 133): w < width * 0.15, with the
constant 0.15 modelled exactly as the rational 3/20. -/
def tooNarrow (width : Nat) (b : Box) : Bool :=
  decide (20 * b.w < 3 * width)

/-- A contour is removed when either rejection test fires (both branches of the
loop body remove the contour and continue). -/
def rejected (width : Nat) (b : Box) : Bool :=
  tooTall b || tooNarrow width b

/-- The contour-filtering loop of get_text_boxes (src/main.py lines 124-135).
Python's list iterator keeps a position index: each pass fetches the element at
the index and then increments the index, and list.remove deletes the first
occurrence of the fetched value, shifting later elements down — so the element
directly after a removed one is never examined. The fuel argument bounds the
number of passes; the initial list length suffices because the index grows by
one per pass and the list never grows. -/
def contourLoop (width : Nat) : Nat → List Box → Nat → List Box
  | 0, l, _ => l
  | fuel + 1, l, i =>
    if h : i < l.length then
      if rejected width (l.get ⟨i, h⟩) = true then
        contourLoop width fuel (l.erase (l.get ⟨i, h⟩)) (i + 1)
      else
        contourLoop width fuel l (i + 1)
    else l

/-- The filtering stage of get_text_boxes, run over the raw contour list. -/
def filterContours (width : Nat) (contours : List Box) : List Box :=
  contourLoop width contours.length contours 0

/-- External library operations the script calls: cv2 colour conversion, the
morphology passes (1 x 5 erosion, 7 x 7 dilation times 4, 2 x 2 dilation), the
external-contour extraction, and the pytesseract OCR engine. They are
out-of-scope collaborators, so the pipeline is parametrised over them. -/
structure Externals where
  cvtGray : CImg → Img
  erode15 : Img → Img
  dilate77 : Img → Img
  dilate22 : Img → Img
  findContours : Img → List Box
  ocrEngine : Img → List Char

/-- Image.get_text_boxes (src/main.py lines 105-137): grayscale, threshold and
invert (the saved mask self.thresh), erode, dilate, extract external contours,
then filter by the width/height heuristic against self.width. Returns the saved
mask together with the surviving contours. -/
def get_text_boxes (E : Externals) (image : CImg) : Img × List Box :=
  (threshMask (E.cvtGray image),
    filterContours image.width
      (E.findContours (E.dilate77 (E.erode15 (threshMask (E.cvtGray image))))))

/-- The failure raised when no region survives filtering: the AssertionError of
src/main.py line 143, named NoRegionsError by the spec. -/
inductive PipelineError
  | noRegions
deriving DecidableEq, Repr

/-- One crop self.thresh[y : y + h, x : x + w] (src/main.py line 149). -/
def crop (mask : Img) (b : Box) : Img :=
  { height := b.h, width := b.w, px := fun i j => mask.px (b.y + i) (b.x + j) }

/-- The crops of the saved mask at each contour's bounding box, in order. -/
def cropList (mask : Img) (contours : List Box) : List Img :=
  contours.map (crop mask)

/-- Image.crop_contours (src/main.py lines 140-152): assert the contour list is
truthy — an empty list fails — then crop the saved mask to each bounding box. -/
def crop_contours (mask : Img) (contours : List Box) : Except PipelineError (List Img) :=
  if contours.isEmpty then .error .noRegions else .ok (cropList mask contours)

/-- The crops produced by a full pipeline run on one image: the crop step runs
on the mask and contours computed by the detection step. -/
def pipelineCrops (E : Externals) (image : CImg) : Except PipelineError (List Img) :=
  crop_contours (get_text_boxes E image).1 (get_text_boxes E image).2

/-- The OCR loop of Image.get_contour_texts (src/main.py lines 173-181): each
crop is dilated with a 2 x 2 kernel and handed to the OCR engine; strings are
modelled as lists of characters. -/
def ocrTexts (E : Externals) (crops : List Img) : List (List Char) :=
  crops.map fun c => E.ocrEngine (E.dilate22 c)

/-- The texts produced by a full pipeline run. -/
def pipelineTexts (E : Externals) (image : CImg) : Except PipelineError (List (List Char)) :=
  (pipelineCrops E image).map (ocrTexts E)

/-- Python's newline join of src/main.py line 187, on strings as character
lists: the persisted content of text.txt. -/
def newlineJoin : List (List Char) → List Char
  | [] => []
  | [t] => t
  | t :: u :: ts => t ++ '\n' :: newlineJoin (u :: ts)

/-- Splitting a character stream into its newline-separated blocks. -/
def splitNL : List Char → List (List Char)
  | [] => [[]]
  | c :: rest =>
    if c = '\n' then [] :: splitNL rest
    else
      match splitNL rest with
      | [] => [[c]]
      | t :: ts => (c :: t) :: ts

/-- Colour triple in channel order, as passed to cv2.rectangle. -/
abbrev Color := Nat × Nat × Nat

/-- Pixel (r, c) lies on the rasterised outline of box b drawn with the given
thickness: within Chebyshev distance thickness / 2 of the outline rectangle
from (x, y) to (x + w, y + h), the way cv2.rectangle thickens the outline on
both sides of the ideal line. -/
def onBorder (thickness : Nat) (b : Box) (r c : Nat) : Bool :=
  (decide (b.x ≤ c + thickness / 2) && decide (c ≤ b.x + b.w + thickness / 2) &&
    decide (b.y ≤ r + thickness / 2) && decide (r ≤ b.y + b.h + thickness / 2)) &&
  ! (decide (b.x + thickness / 2 < c) && decide (c + thickness / 2 < b.x + b.w) &&
    decide (b.y + thickness / 2 < r) && decide (r + thickness / 2 < b.y + b.h))

/-- cv2.rectangle (src/main.py line 163): paint the colour on the outline ring,
keep the image elsewhere. -/
def cv2_rectangle (img : CImg) (b : Box) (color : Color) (thickness : Nat) : CImg :=
  { img with px := fun r c => if onBorder thickness b r c then color else img.px r c }

/-- The colour tuple (0, 255, 0) of src/main.py line 163. -/
def green : Color := (0, 255, 0)

/-- Image.draw_contours (src/main.py lines 155-167): copy self.image, draw a
thickness-2 rectangle in colour (0, 255, 0) at each contour's bounding box on
the copy, and write the copy out. Returns the written image together with
self.image as it stands after the call. -/
def draw_contours (image : CImg) (contours : List Box) : CImg × CImg :=
  (contours.foldl (fun im b => cv2_rectangle im b green 2) image, image)

/-- Filesystem paths as component lists. -/
abbrev FPath := List String

/-- images/<uid>/input_images/input.png, written by save_image_from_url
(src/main.py lines 99-100). -/
def inputPath (uid : String) : FPath :=
  ["images", uid, "input_images", "input.png"]

/-- images/<uid>/output_images/contours.png, written by draw_contours
(src/main.py lines 165-167). -/
def contoursPath (uid : String) : FPath :=
  ["images", uid, "output_images", "contours.png"]

/-- images/<uid>/output_texts/text.txt, written by get_contour_texts
(src/main.py lines 183-187). -/
def textPath (uid : String) : FPath :=
  ["images", uid, "output_texts", "text.txt"]

/-- Writing a file into a filesystem modelled as a list of file paths: creates
the path when absent, overwrites in place when present. Directory creation adds
no files. -/
def writeFile (fs : List FPath) (p : FPath) : List FPath :=
  if p ∈ fs then fs else fs ++ [p]

/-- The file lives under the run directory images/<uid>/. -/
def underRun (uid : String) (p : FPath) : Bool :=
  decide (p.take 2 = ["images", uid])

/-- The files a successful run writes, in execution order: input.png during
save_image_from_url, text.txt during get_contour_texts (both inside
Image.__init__, src/main.py lines 78-82), then contours.png during the
draw_contours call made by ocr_meme. -/
def runPipelineFS (uid : String) (fs0 : List FPath) : List FPath :=
  writeFile (writeFile (writeFile fs0 (inputPath uid)) (textPath uid)) (contoursPath uid)

/-- The credential fields stored by Reddit.__init__ (src/main.py lines 24-30). -/
structure RedditState where
  username : String
  password : String
  client_id : String
  client_secret : String
  user_agent : String

/-- The keyword arguments handed to praw.Reddit by Reddit._initialize. -/
structure PrawKwargs where
  client_id : String
  client_secret : String
  password : String
  username : String
  user_agent : String
deriving DecidableEq, Repr

/-- Reddit._initialize (src/main.py lines 33-41): the praw.Reddit call passes
client_id = self.username (line 35); the stored client_id is not used. -/
def redditInit (s : RedditState) : PrawKwargs :=
  { client_id := s.username
    client_secret := s.client_secret
    password := s.password
    username := s.username
    user_agent := s.user_agent }

/-- Failure of the random pick on an empty URL list: numpy raises ValueError,
the spec's EmptyInputError. -/
inductive FeedError
  | emptyInput
deriving DecidableEq, Repr

/-- Reddit.get_random_url (src/main.py lines 58-60): np.random.choice over the
scraped URL list; the random draw is modelled by an arbitrary natural k reduced
modulo the length. -/
def get_random_url (urls : List String) (k : Nat) : Except FeedError String :=
  if h : urls.length = 0 then .error .emptyInput
  else .ok (urls.get ⟨k % urls.length, Nat.mod_lt k (Nat.pos_of_ne_zero h)⟩)

/-- A Python NameError on an unbound name. -/
inductive PyError
  | nameError (n : String)
deriving DecidableEq, Repr

/-- Names bound in the class body of Reddit at the moment the line
def ocr_meme(self, url = self.get_random_url) executes (src/main.py line 63):
the methods defined above it. Python evaluates a default-argument expression
once, at function-definition time, in the enclosing scope — here the class
body, where self is not bound. -/
def redditClassBodyNames : List String :=
  ["__init__", "_initialize", "scrape_sub_pictures", "get_random_url"]

/-- Evaluating the default expression self.get_random_url in a scope: resolve
the name self, then take the attribute; an unbound name raises NameError. -/
def evalOcrMemeDefault (scope : List String) : Except PyError String :=
  if ("self" : String) ∈ scope then .ok ("bound method get_random_url")
  else .error (.nameError ("self"))

/-- No two adjacent contours of the list are both rejected by the filter. -/
def noAdjacentRejected (width : Nat) : List Box → Bool
  | [] => true
  | [_] => true
  | a :: b :: t => (!(rejected width a && rejected width b)) && noAdjacentRejected width (b :: t)

/-- Concrete grayscale image whose single pixel has luminance exactly 250. -/
def gray250 : Img :=
  { height := 1, width := 1, px := fun _ _ => 250 }

/-- Concrete stored credentials, pairwise distinct. -/
def credState : RedditState :=
  { username := "alice"
    password := "hunter2"
    client_id := "cid123"
    client_secret := "sec456"
    user_agent := "required" }

/-- A tall narrow bounding box: height exceeds width. -/
def tallBox : Box := ⟨0, 0, 1, 2⟩

/-- A wide bounding box accepted by the filter for small image widths. -/
def wideBox : Box := ⟨0, 0, 2, 1⟩

/-- Externals whose contour extraction finds exactly one tall narrow contour. -/
def extTall : Externals :=
  { cvtGray := fun c => ⟨c.height, c.width, fun i j => (c.px i j).1⟩
    erode15 := id
    dilate77 := id
    dilate22 := id
    findContours := fun _ => [⟨0, 0, 1, 2⟩]
    ocrEngine := fun _ => ['h', 'i'] }

/-- Externals whose contour extraction finds exactly one wide contour and whose
OCR engine returns a newline-free string. -/
def extWide : Externals :=
  { cvtGray := fun c => ⟨c.height, c.width, fun i j => (c.px i j).1⟩
    erode15 := id
    dilate77 := id
    dilate22 := id
    findContours := fun _ => [⟨0, 0, 2, 1⟩]
    ocrEngine := fun _ => ['h', 'i'] }

/-- Externals whose OCR engine returns a string containing a newline, as
pytesseract routinely does. -/
def extNewline : Externals :=
  { cvtGray := fun c => ⟨c.height, c.width, fun i j => (c.px i j).1⟩
    erode15 := id
    dilate77 := id
    dilate22 := id
    findContours := fun _ => [⟨0, 0, 2, 1⟩]
    ocrEngine := fun _ => ['a', '\n', 'b'] }

/-- Concrete dark colour image. -/
def blankImage : CImg := ⟨4, 4, fun _ _ => (0, 0, 0)⟩

/-- Concrete mask used by crop witnesses. -/
def maskW : Img := ⟨2, 2, fun _ _ => 0⟩

/-- Concrete colour image, first channel 5. -/
def colorA : CImg := ⟨1, 1, fun _ _ => (5, 0, 0)⟩

/-- Concrete colour image, first channel 7: same threshold mask as colorA but
different pixel data. -/
def colorB : CImg := ⟨1, 1, fun _ _ => (7, 0, 0)⟩

/- Helper lemmas. -/

/-- Unfolding lemma for the successor step of the filtering loop. -/
lemma contourLoop_succ (width fuel : Nat) (l : List Box) (i : Nat) :
    contourLoop width (fuel + 1) l i =
      if h : i < l.length then
        if rejected width (l.get ⟨i, h⟩) = true then
          contourLoop width fuel (l.erase (l.get ⟨i, h⟩)) (i + 1)
        else
          contourLoop width fuel l (i + 1)
      else l := rfl

/-- Once the index passes the end of the list, the loop changes nothing. -/
lemma contourLoop_end (width : Nat) :
    ∀ (fuel : Nat) (l : List Box) (i : Nat), l.length ≤ i → contourLoop width fuel l i = l
  | 0, _, _, _ => rfl
  | fuel + 1, l, i, h => by
    rw [contourLoop_succ]
    rw [dif_neg (by omega)]

/-- The element sitting at the junction of an append. -/
lemma get_append_cons : ∀ (pre post : List Box) (b : Box)
    (h : pre.length < (pre ++ b :: post).length),
    (pre ++ b :: post).get ⟨pre.length, h⟩ = b
  | [], _, _, _ => rfl
  | a :: t, post, b, h => get_append_cons t post b (by
      simp only [List.length_append, List.length_cons]
      omega)

/-- The adjacency condition survives dropping the head. -/
lemma noAdjacentRejected_tail (width : Nat) (a : Box) (t : List Box)
    (h : noAdjacentRejected width (a :: t) = true) :
    noAdjacentRejected width t = true := by
  cases t with
  | nil => rfl
  | cons b t' =>
    have h' := h
    rw [noAdjacentRejected, Bool.and_eq_true] at h'
    exact h'.2

/-- When the head of an adjacent pair is rejected, the second is not. -/
lemma noAdjacentRejected_head (width : Nat) (a b : Box) (t : List Box)
    (h : noAdjacentRejected width (a :: b :: t) = true)
    (ha : rejected width a = true) :
    rejected width b = false := by
  rw [noAdjacentRejected, Bool.and_eq_true] at h
  rcases h with ⟨h1, _⟩
  cases hb : rejected width b
  · rfl
  · rw [ha, hb] at h1
    simp at h1

/-- Soundness of the filtering loop under distinctness and the adjacency
condition: starting from an all-accepted processed prefix, every element of the
final list is accepted. -/
lemma contourLoop_sound (width : Nat) :
    ∀ (fuel : Nat) (pre post : List Box),
      post.length ≤ fuel →
      (∀ b ∈ pre, rejected width b = false) →
      (pre ++ post).Nodup →
      noAdjacentRejected width post = true →
      ∀ b ∈ contourLoop width fuel (pre ++ post) pre.length, rejected width b = false := by
  intro fuel
  induction fuel with
  | zero =>
    intro pre post hlen hpre _ _
    have hpost : post = [] := List.eq_nil_of_length_eq_zero (Nat.le_zero.1 hlen)
    subst hpost
    intro b hb
    rw [contourLoop] at hb
    rw [List.append_nil] at hb
    exact hpre b hb
  | succ fuel ih =>
    intro pre post hlen hpre hnd hadj
    cases post with
    | nil =>
      rw [List.append_nil] at hnd ⊢
      rw [contourLoop_end width (fuel + 1) pre pre.length (le_refl _)]
      exact hpre
    | cons b post' =>
      have hi : pre.length < (pre ++ b :: post').length := by
        simp only [List.length_append, List.length_cons]
        omega
      rw [contourLoop_succ, dif_pos hi, get_append_cons pre post' b hi]
      cases hrej : rejected width b with
      | true =>
        rw [if_pos rfl]
        have hbpre : b ∉ pre := by
          rcases List.nodup_append.1 hnd with ⟨_, _, hdisj⟩
          exact fun hb => hdisj hb (List.mem_cons_self b post')
        rw [List.erase_append_right _ hbpre, List.erase_cons_head]
        cases post' with
        | nil =>
          intro x hx
          rw [List.append_nil] at hx
          rw [contourLoop_end width fuel pre (pre.length + 1) (by omega)] at hx
          exact hpre x hx
        | cons c rest =>
          have hc : rejected width c = false :=
            noAdjacentRejected_head width b c rest hadj hrej
          have hrw : pre ++ c :: rest = (pre ++ [c]) ++ rest := by
            simp
          have hlenc : pre.length + 1 = (pre ++ [c]).length := by
            simp
          rw [hrw, hlenc]
          apply ih (pre ++ [c]) rest
          · simp only [List.length_cons] at hlen
            omega
          · intro x hx
            rcases List.mem_append.1 hx with h1 | h1
            · exact hpre x h1
            · rw [List.mem_singleton.1 h1]
              exact hc
          · have hsub : List.Sublist (pre ++ c :: rest) (pre ++ b :: c :: rest) :=
              List.Sublist.append_left (List.sublist_cons_self b (c :: rest)) pre
            rw [← hrw]
            exact List.Nodup.sublist hsub hnd
          · exact noAdjacentRejected_tail width c rest
              (noAdjacentRejected_tail width b (c :: rest) hadj)
      | false =>
        rw [if_neg (by simp [hrej])]
        have hrw : pre ++ b :: post' = (pre ++ [b]) ++ post' := by
          simp
        have hlenb : pre.length + 1 = (pre ++ [b]).length := by
          simp
        rw [hrw, hlenb]
        apply ih (pre ++ [b]) post'
        · simp only [List.length_cons] at hlen
          omega
        · intro x hx
          rcases List.mem_append.1 hx with h1 | h1
          · exact hpre x h1
          · rw [List.mem_singleton.1 h1]
            exact hrej
        · rw [← hrw]
          exact hnd
        · exact noAdjacentRejected_tail width b post' hadj

/-- Folding thickness-2 green rectangles over a list of boxes colours exactly
the pixels on some box's outline ring and preserves all others. -/
lemma foldl_rectangle_px (contours : List Box) (img : CImg) (r c : Nat) :
    (contours.foldl (fun im b => cv2_rectangle im b green 2) img).px r c =
      if contours.any (fun b => onBorder 2 b r c) then green else img.px r c := by
  induction contours generalizing img with
  | nil => simp
  | cons b bs ih =>
    rw [List.foldl_cons, ih, List.any_cons]
    cases hb : onBorder 2 b r c <;> cases hbs : bs.any (fun b => onBorder 2 b r c) <;>
      simp [cv2_rectangle, hb, hbs]

/-- Splitting a newline-free stream yields the single block. -/
lemma splitNL_no_newline : ∀ (t : List Char), ('\n' : Char) ∉ t → splitNL t = [t]
  | [], _ => rfl
  | c :: t, h => by
    have hc : ¬(c = '\n') := fun hcc => h (hcc ▸ List.mem_cons_self c t)
    have ht : ('\n' : Char) ∉ t := fun hm => h (List.mem_cons_of_mem c hm)
    rw [splitNL]
    rw [if_neg hc, splitNL_no_newline t ht]

/-- Splitting separates a newline-free block from the rest of the stream. -/
lemma splitNL_append (t cs : List Char) (h : ('\n' : Char) ∉ t) :
    splitNL (t ++ '\n' :: cs) = t :: splitNL cs := by
  induction t with
  | nil =>
    rw [List.nil_append, splitNL, if_pos rfl]
  | cons c t ih =>
    have hc : ¬(c = '\n') := fun hcc => h (hcc ▸ List.mem_cons_self c t)
    have ht : ('\n' : Char) ∉ t := fun hm => h (List.mem_cons_of_mem c hm)
    rw [List.cons_append, splitNL, if_neg hc, ih ht]

/-- Round trip: splitting the newline join of nonempty, newline-free blocks
recovers exactly the blocks. -/
lemma splitNL_newlineJoin : ∀ (ts : List (List Char)), ts ≠ [] →
    (∀ t ∈ ts, ('\n' : Char) ∉ t) → splitNL (newlineJoin ts) = ts
  | [], hne, _ => absurd rfl hne
  | [t], _, h => by
    rw [newlineJoin, splitNL_no_newline t (h t (List.mem_singleton.2 rfl))]
  | t :: u :: ts, _, h => by
    have ht : ('\n' : Char) ∉ t := h t (List.mem_cons_self _ _)
    have hrest : ∀ x ∈ u :: ts, ('\n' : Char) ∉ x :=
      fun x hx => h x (List.mem_cons_of_mem t hx)
    rw [newlineJoin, splitNL_append t _ ht,
      splitNL_newlineJoin (u :: ts) (List.cons_ne_nil u ts) hrest]

/- Claim theorems. -/

/-- C1 (amended): provided the contour bounding boxes are pairwise distinct and
no two consecutive contours both violate the acceptance conditions, every
region returned by the detection filter satisfies width >= height and
width >= 0.15 * image width. (In general the loop removes elements of the list
it is iterating, which skips the element after each removal, so a violating
contour can survive — see the counterexample.) -/
theorem C1_filter_invariant (width : Nat) (contours : List Box)
    (hnd : contours.Nodup)
    (hadj : noAdjacentRejected width contours = true) :
    ∀ b ∈ filterContours width contours, b.h ≤ b.w ∧ 3 * width ≤ 20 * b.w := by
  intro b hb
  have h := contourLoop_sound width contours.length [] contours (le_refl _)
    (by intro x hx; cases hx) (by simpa using hnd) hadj b (by simpa using hb)
  rw [rejected, Bool.or_eq_false_iff, tooTall, tooNarrow] at h
  rcases h with ⟨h1, h2⟩
  rw [decide_eq_false_iff_not] at h1 h2
  omega

/-- C1 witness: a tall contour followed by a wide accepted one; the boxes are
distinct and no two consecutive contours are both rejected, and the surviving
region satisfies both acceptance conditions. -/
theorem C1_filter_invariant_witness :
    ([⟨0, 0, 1, 2⟩, ⟨0, 0, 40, 10⟩] : List Box).Nodup ∧
    noAdjacentRejected 100 [⟨0, 0, 1, 2⟩, ⟨0, 0, 40, 10⟩] = true ∧
    ∀ b ∈ filterContours 100 [⟨0, 0, 1, 2⟩, ⟨0, 0, 40, 10⟩],
      b.h ≤ b.w ∧ 3 * 100 ≤ 20 * b.w :=
  ⟨by decide, by decide,
    C1_filter_invariant 100 [⟨0, 0, 1, 2⟩, ⟨0, 0, 40, 10⟩] (by decide) (by decide)⟩

/-- C1 counterexample: with two consecutive rejected contours, removing the
first during iteration shifts the list so the second is never examined; it
survives the filter even though its height exceeds its width, falsifying the
claimed invariant as stated. -/
theorem C1_counterexample :
    ¬ ∀ b ∈ filterContours 100 [⟨0, 0, 1, 2⟩, ⟨0, 0, 2, 3⟩],
        b.h ≤ b.w ∧ 3 * 100 ≤ 20 * b.w := by
  decide

/-- C2: evaluating the default expression self.get_random_url of ocr_meme in
the Reddit class body fails with a NameError on self, because Python evaluates
default arguments at function-definition time in the class-body scope. The URL
handed to the Image processor therefore cannot be one obtained at call time by
the random-pick operation: the def statement itself dies before ocr_meme
exists, and even with a bound receiver the default would be the method object,
never a URL drawn at call time. -/
theorem C2_default_arg_name_error :
    evalOcrMemeDefault redditClassBodyNames = .error (.nameError ("self")) := rfl

/-- C3: praw.Reddit is constructed with client_id set to the stored username,
and whenever the stored client_id differs from the other stored credentials it
is not among the values passed to the API client. -/
theorem C3_client_id_is_username (s : RedditState)
    (h : s.client_id ∉ [s.username, s.password, s.client_secret, s.user_agent]) :
    (redditInit s).client_id = s.username ∧
    s.client_id ∉ [(redditInit s).client_id, (redditInit s).client_secret,
      (redditInit s).password, (redditInit s).username, (redditInit s).user_agent] := by
  refine ⟨rfl, ?_⟩
  simp only [redditInit] at *
  simp only [List.mem_cons, List.not_mem_nil, or_false] at h ⊢
  tauto

/-- C3 witness at concrete pairwise-distinct credentials. -/
theorem C3_client_id_is_username_witness :
    credState.client_id ∉ [credState.username, credState.password,
      credState.client_secret, credState.user_agent] ∧
    ((redditInit credState).client_id = credState.username ∧
      credState.client_id ∉ [(redditInit credState).client_id,
        (redditInit credState).client_secret, (redditInit credState).password,
        (redditInit credState).username, (redditInit credState).user_agent]) :=
  ⟨by decide, C3_client_id_is_username credState (by decide)⟩

/-- C4: whenever the detection step accepts zero regions the crop step fails
with the NoRegionsError assertion rather than producing empty output; and when
contour extraction finds exactly one contour, a tall narrow one (height
exceeding width), the filter accepts nothing, so such an image fails this way. -/
theorem C4_no_regions_failure (E : Externals) (image : CImg) (b : Box)
    (hfc : E.findContours (E.dilate77 (E.erode15 (threshMask (E.cvtGray image)))) = [b])
    (hb : b.w < b.h) :
    (get_text_boxes E image).2 = [] ∧
    pipelineCrops E image = .error .noRegions ∧
    ∀ im2 : CImg, (get_text_boxes E im2).2 = [] →
      pipelineCrops E im2 = .error .noRegions := by
  have hrej : rejected image.width b = true := by
    rw [rejected, tooTall]
    simp [hb]
  have hfil : filterContours image.width [b] = [] := by
    rw [filterContours]
    simp only [List.length_cons, List.length_nil]
    rw [contourLoop_succ]
    rw [dif_pos (by simp)]
    simp only [List.get]
    rw [if_pos hrej, List.erase_cons_head, contourLoop]
  have hmain : ∀ im2 : CImg, (get_text_boxes E im2).2 = [] →
      pipelineCrops E im2 = .error .noRegions := by
    intro im2 h2
    rw [pipelineCrops, h2]
    rfl
  have hgtb : (get_text_boxes E image).2 = [] := by
    rw [get_text_boxes]
    simp only [hfc]
    exact hfil
  exact ⟨hgtb, hmain image hgtb, hmain⟩

/-- C4 witness: the tall single-contour externals on a concrete image. -/
theorem C4_no_regions_failure_witness :
    extTall.findContours (extTall.dilate77 (extTall.erode15
      (threshMask (extTall.cvtGray blankImage)))) = [tallBox] ∧
    tallBox.w < tallBox.h ∧
    ((get_text_boxes extTall blankImage).2 = [] ∧
      pipelineCrops extTall blankImage = .error .noRegions ∧
      ∀ im2 : CImg, (get_text_boxes extTall im2).2 = [] →
        pipelineCrops extTall im2 = .error .noRegions) :=
  ⟨rfl, by decide, C4_no_regions_failure extTall blankImage tallBox rfl (by decide)⟩

/-- C5 (amended): the saved mask is 255 exactly at pixels whose luminance is
strictly greater than 250 — that is, at least 251 — and 0 at all pixels with
luminance at most 250: THRESH_BINARY_INV compares with a strict inequality, so
a pixel of exactly 250 is background. -/
theorem C5_threshold_mask (g : Img) (i j : Nat) :
    ((threshMask g).px i j = 255 ↔ 251 ≤ g.px i j) ∧
    ((threshMask g).px i j = 0 ↔ g.px i j ≤ 250) := by
  rw [threshMask, invert255, thresholdBinaryInv]
  by_cases h : 250 < g.px i j <;> simp [h] <;> omega

/-- C5 counterexample: a pixel of luminance exactly 250 — placed in the
foreground by the claim — is mapped to 0 rather than 255 by the thresholding
step. -/
theorem C5_counterexample :
    250 ≤ gray250.px 0 0 ∧ (threshMask gray250).px 0 0 = 0 ∧ (0 : Nat) ≠ 255 := by
  decide

/-- C6 (amended): on a successful run the crop step succeeds, there are exactly
as many OCR strings as accepted regions, the i-th crop is the crop of the i-th
region and the i-th OCR string is produced from the i-th crop, and the
persisted file is the newline-join of the strings — all unconditionally; and
provided no OCR string itself contains a newline character, the i-th
newline-separated block of the file equals the i-th OCR string. -/
theorem C6_order_preserved (E : Externals) (mask : Img) (contours : List Box)
    (hne : contours ≠ []) :
    crop_contours mask contours = .ok (cropList mask contours) ∧
    (ocrTexts E (cropList mask contours)).length = contours.length ∧
    (∀ i : Nat, (cropList mask contours)[i]? = (contours[i]?).map (crop mask) ∧
      (ocrTexts E (cropList mask contours))[i]? =
        ((cropList mask contours)[i]?).map fun c => E.ocrEngine (E.dilate22 c)) ∧
    ((∀ t ∈ ocrTexts E (cropList mask contours), ('\n' : Char) ∉ t) →
      splitNL (newlineJoin (ocrTexts E (cropList mask contours))) =
        ocrTexts E (cropList mask contours)) := by
  refine ⟨?_, ?_, ?_, fun hnn => ?_⟩
  · rw [crop_contours, if_neg (by simp [hne])]
  · rw [ocrTexts, cropList]
    simp
  · intro i
    constructor
    · rw [cropList]
      simp [List.getElem?_map]
    · rw [ocrTexts]
      simp [List.getElem?_map]
  · apply splitNL_newlineJoin _ ?_ hnn
    rw [ocrTexts, cropList]
    simp [hne]

/-- C6 witness at one accepted region and an OCR engine returning a
newline-free string. -/
theorem C6_order_preserved_witness :
    (([wideBox] : List Box) ≠ []) ∧
    (crop_contours maskW [wideBox] = .ok (cropList maskW [wideBox]) ∧
      (ocrTexts extWide (cropList maskW [wideBox])).length = ([wideBox] : List Box).length ∧
      (∀ i : Nat, (cropList maskW [wideBox])[i]? =
          (([wideBox] : List Box)[i]?).map (crop maskW) ∧
        (ocrTexts extWide (cropList maskW [wideBox]))[i]? =
          ((cropList maskW [wideBox])[i]?).map fun c => extWide.ocrEngine (extWide.dilate22 c)) ∧
      ((∀ t ∈ ocrTexts extWide (cropList maskW [wideBox]), ('\n' : Char) ∉ t) →
        splitNL (newlineJoin (ocrTexts extWide (cropList maskW [wideBox]))) =
          ocrTexts extWide (cropList maskW [wideBox]))) :=
  ⟨by decide, C6_order_preserved extWide maskW [wideBox] (by decide)⟩

/-- C6 counterexample: when the OCR engine emits a string containing a newline,
the 0-th newline-separated block of the persisted file is "a" while the 0-th
OCR string is "a\x5cnb", so block i need not equal string i as the claim
states. -/
theorem C6_counterexample :
    (splitNL (newlineJoin (ocrTexts extNewline (cropList maskW [wideBox]))))[0]? ≠
      (ocrTexts extNewline (cropList maskW [wideBox]))[0]? := by
  decide

/-- C7: get_random_url fails with EmptyInputError on an empty URL list, and on
a singleton list it returns the single URL whatever the random draw. -/
theorem C7_get_random_url (u : String) (k : Nat) :
    get_random_url [] k = .error .emptyInput ∧ get_random_url [u] k = .ok u := by
  constructor
  · rfl
  · rw [get_random_url]
    simp [Nat.mod_one]

/-- C8: the stored crops are the bounding-box sub-rectangles of the saved
threshold mask — computed before erosion and dilation — and the OCR step
consumes exactly those mask crops (each after the OCR step's own 2 x 2
dilation); moreover the crops and texts depend on the decoded colour image only
through its width and its threshold mask: two images with equal widths and
equal masks yield identical crops and identical texts, whatever their colour
pixel data. -/
theorem C8_crops_from_mask (E : Externals) (image im2 : CImg)
    (hw : image.width = im2.width)
    (hm : threshMask (E.cvtGray image) = threshMask (E.cvtGray im2)) :
    (∀ crops, pipelineCrops E image = .ok crops →
      crops = ((get_text_boxes E image).2).map (crop (threshMask (E.cvtGray image))) ∧
      pipelineTexts E image = .ok (crops.map fun c => E.ocrEngine (E.dilate22 c))) ∧
    pipelineCrops E image = pipelineCrops E im2 ∧
    pipelineTexts E image = pipelineTexts E im2 := by
  have hpc : pipelineCrops E image =
      if ((get_text_boxes E image).2).isEmpty then .error .noRegions
      else .ok (((get_text_boxes E image).2).map (crop (threshMask (E.cvtGray image)))) := by
    rw [pipelineCrops, crop_contours, cropList]
    rfl
  have key : pipelineCrops E image = pipelineCrops E im2 := by
    simp only [pipelineCrops, get_text_boxes, crop_contours, cropList]
    rw [hm, hw]
  refine ⟨?_, key, ?_⟩
  · intro crops hok
    rw [hpc] at hok
    by_cases hempty : ((get_text_boxes E image).2).isEmpty
    · rw [if_pos hempty] at hok
      exact absurd hok (by simp)
    · rw [if_neg hempty] at hok
      have hcrops : crops =
          ((get_text_boxes E image).2).map (crop (threshMask (E.cvtGray image))) := by
        injection hok with h
        exact h.symm
      refine ⟨hcrops, ?_⟩
      rw [pipelineTexts, hpc, if_neg hempty, hcrops]
      rfl
  · rw [pipelineTexts, pipelineTexts, key]

/-- C8 witness: two one-pixel images with different colour data but identical
threshold masks produce identical crops and texts. -/
theorem C8_crops_from_mask_witness :
    colorA.width = colorB.width ∧
    threshMask (extWide.cvtGray colorA) = threshMask (extWide.cvtGray colorB) ∧
    ((∀ crops, pipelineCrops extWide colorA = .ok crops →
      crops = ((get_text_boxes extWide colorA).2).map
        (crop (threshMask (extWide.cvtGray colorA))) ∧
      pipelineTexts extWide colorA =
        .ok (crops.map fun c => extWide.ocrEngine (extWide.dilate22 c))) ∧
    pipelineCrops extWide colorA = pipelineCrops extWide colorB ∧
    pipelineTexts extWide colorA = pipelineTexts extWide colorB) :=
  ⟨rfl, rfl, C8_crops_from_mask extWide colorA colorB rfl rfl⟩

/-- C9: starting from a filesystem holding nothing under the run directory, a
successful run leaves exactly three files under images/<uid>/: input.png in
input_images, text.txt in output_texts and contours.png in output_images. -/
theorem C9_three_files (uid : String) (fs0 : List FPath)
    (hfresh : ∀ p ∈ fs0, underRun uid p = false) :
    (runPipelineFS uid fs0).filter (underRun uid) =
      [inputPath uid, textPath uid, contoursPath uid] := by
  have hu1 : underRun uid (inputPath uid) = true := by
    rw [underRun, inputPath]
    simp
  have hu2 : underRun uid (textPath uid) = true := by
    rw [underRun, textPath]
    simp
  have hu3 : underRun uid (contoursPath uid) = true := by
    rw [underRun, contoursPath]
    simp
  have h1 : inputPath uid ∉ fs0 := by
    intro hmem
    rw [hfresh _ hmem] at hu1
    exact Bool.false_ne_true hu1
  have e1 : writeFile fs0 (inputPath uid) = fs0 ++ [inputPath uid] := by
    rw [writeFile, if_neg h1]
  have hti : textPath uid ≠ inputPath uid := by
    rw [textPath, inputPath]
    simp
  have h2 : textPath uid ∉ fs0 ++ [inputPath uid] := by
    intro hmem
    rcases List.mem_append.1 hmem with hA | hB
    · rw [hfresh _ hA] at hu2
      exact Bool.false_ne_true hu2
    · exact hti (List.mem_singleton.1 hB)
  have e2 : writeFile (fs0 ++ [inputPath uid]) (textPath uid) =
      fs0 ++ [inputPath uid] ++ [textPath uid] := by
    rw [writeFile, if_neg h2]
  have hci : contoursPath uid ≠ inputPath uid := by
    rw [contoursPath, inputPath]
    simp
  have hct : contoursPath uid ≠ textPath uid := by
    rw [contoursPath, textPath]
    simp
  have h3 : contoursPath uid ∉ fs0 ++ [inputPath uid] ++ [textPath uid] := by
    intro hmem
    rcases List.mem_append.1 hmem with hA | hB
    · rcases List.mem_append.1 hA with hA' | hB'
      · rw [hfresh _ hA'] at hu3
        exact Bool.false_ne_true hu3
      · exact hci (List.mem_singleton.1 hB')
    · exact hct (List.mem_singleton.1 hB)
  have e3 : writeFile (fs0 ++ [inputPath uid] ++ [textPath uid]) (contoursPath uid) =
      fs0 ++ [inputPath uid] ++ [textPath uid] ++ [contoursPath uid] := by
    rw [writeFile, if_neg h3]
  have hf0 : fs0.filter (underRun uid) = [] := by
    rw [List.filter_eq_nil_iff]
    intro p hp
    rw [hfresh p hp]
    exact Bool.false_ne_true
  rw [runPipelineFS, e1, e2, e3]
  rw [List.filter_append, List.filter_append, List.filter_append, hf0]
  simp [hu1, hu2, hu3]

/-- C9 witness: a fresh run identifier over a filesystem holding one unrelated
file. -/
theorem C9_three_files_witness :
    (∀ p ∈ [(["images", "other", "input_images", "input.png"] : FPath)],
      underRun ("run0") p = false) ∧
    (runPipelineFS ("run0") [(["images", "other", "input_images", "input.png"] : FPath)]).filter
        (underRun ("run0")) =
      [inputPath ("run0"), textPath ("run0"), contoursPath ("run0")] :=
  ⟨by decide, C9_three_files ("run0") [["images", "other", "input_images", "input.png"]] (by decide)⟩

/-- C10: draw_contours leaves the decoded image buffer unchanged and the
written annotated image is the original with a thickness-2 rectangle in colour
(0, 255, 0) at each accepted region's bounding box: a pixel on some region's
2px outline ring is green and every other pixel keeps its original value. -/
theorem C10_draw_contours (image : CImg) (contours : List Box) :
    (draw_contours image contours).2 = image ∧
    ∀ r c, (draw_contours image contours).1.px r c =
      if contours.any (fun b => onBorder 2 b r c) then (0, 255, 0) else image.px r c := by
  refine ⟨rfl, fun r c => ?_⟩
  rw [draw_contours]
  simpa [green] using foldl_rectangle_px contours image r c

end MemeOcr
